import Mathlib

/-!
Verification of the luddcam capture lifecycle and frame-processing pipeline.

The definitions below are shallow embeddings of the python source:

* `luddcam_capture.py` : the capture state machine (`Capture`), the shared
  view state (`View`), the plate-solving orchestrator (`plate_solve`), and
  the frame render pipeline (`downscale`, `pixel_bin`, `quantize`).
* `luddcam_images.py` : a second copy of `plate_solve` and `quantize` with
  slightly different guards.

Python floats are modelled as rationals, python ints as `Int`/`Nat`,
fallible operations (IndexError, ValueError, UnboundLocalError, IO
exceptions) as `Option`/`Except`.  Numpy arrays are modelled by the data
the claims need: either by their shape (for the downscale claims) or as
lists of rows of integer pixels (for the quantize claims).
-/

namespace Luddcam

/-- Capture modes, from the `Mode` enum in luddcam_capture.py. -/
inductive Mode
  | SINGLE
  | REPEAT
  | INTERVALS
deriving DecidableEq, Repr

/-- Lifecycle stages, from the `Stage` enum in luddcam_capture.py. -/
inductive Stage
  | LIVE
  | CAPTURE
  | PAUSE
  | STOP
deriving DecidableEq, Repr

/-- One step of an interval plan: `INTERVAL := {exposure, frames, slot}`
from luddcam_settings.py.  Exposure seconds are modelled as rationals. -/
structure IntervalStep where
  exposure : ℚ
  frames : Nat
  slot : Nat
deriving DecidableEq, Repr

/-- The interval-cursor advance performed at the top of `Capture.run`
(luddcam_capture.py lines 181 to 195).  A `none` cursor stands for the
python `interval_idx = None`; indexing a step that does not exist
(python IndexError) is modelled as a `none` result. -/
def advanceIntervalCursor (intervals : List IntervalStep) (cur : Option (Nat × Nat)) :
    Option (Nat × Nat) :=
  let p := cur.getD (0, 0)
  let index := p.1
  let sub := p.2 + 1
  match intervals[index]? with
  | none => none
  | some step =>
    if step.frames ≤ sub then
      if intervals.length ≤ index + 1 then some (0, 0)
      else some (index + 1, 0)
    else some (index, sub)

/-- A valid interval plan is non-empty and every step asks for at least one
frame (the settings UI only offers frame counts from `FRAME_OPTIONS`,
whose minimum is 4). -/
def validPlan (intervals : List IntervalStep) : Prop :=
  intervals ≠ [] ∧ ∀ step ∈ intervals, 0 < step.frames

/-- A cursor is in range when it is the initial `None` or points at an
existing step with a sub-index below that step's frame count. -/
def cursorInRange (intervals : List IntervalStep) : Option (Nat × Nat) → Prop
  | none => True
  | some (i, s) => ∃ step, intervals[i]? = some step ∧ s < step.frames

instance (intervals : List IntervalStep) (cur : Option (Nat × Nat)) :
    Decidable (cursorInRange intervals cur) := by
  cases cur with
  | none => exact isTrue trivial
  | some p =>
    cases p with
    | mk i s =>
      simp only [cursorInRange]
      infer_instance

instance (intervals : List IntervalStep) : Decidable (validPlan intervals) := by
  unfold validPlan
  infer_instance

/-- C1: for every valid (non-empty, positive frame counts) interval plan
and every in-range cursor (including the initial `None`), the advance at
the top of the capture iteration yields an in-range cursor, and a cursor
sitting on the last frame of the last step wraps to step 0, sub-index 0. -/
theorem advanceIntervalCursor_in_range (intervals : List IntervalStep)
    (cur : Option (Nat × Nat)) (hv : validPlan intervals)
    (hr : cursorInRange intervals cur) :
    (∃ c, advanceIntervalCursor intervals cur = some c ∧
      cursorInRange intervals (some c)) ∧
    (∀ i s step, cur = some (i, s) → intervals[i]? = some step →
      step.frames ≤ s + 1 → intervals.length ≤ i + 1 →
      advanceIntervalCursor intervals cur = some (0, 0)) := by
  obtain ⟨hne, hpos⟩ := hv
  have hlen : 0 < intervals.length := List.length_pos.mpr hne
  obtain ⟨step0, hstep0⟩ : ∃ step0, intervals[0]? = some step0 := by
    cases h : intervals[0]? with
    | none => rw [List.getElem?_eq_none_iff] at h; omega
    | some s => exact ⟨s, rfl⟩
  have hpos0 : 0 < step0.frames := hpos _ (List.getElem?_mem hstep0)
  constructor
  · -- the advanced cursor is always in range
    cases cur with
    | none =>
      simp only [advanceIntervalCursor, Option.getD_some, Option.getD_none, hstep0]
      by_cases hf : step0.frames ≤ 0 + 1
      · simp only [hf, if_true]
        by_cases hl : intervals.length ≤ 0 + 1
        · exact ⟨(0, 0), by simp [hl], step0, hstep0, hpos0⟩
        · refine ⟨(1, 0), by simp [hl], ?_⟩
          obtain ⟨step1, hstep1⟩ : ∃ step1, intervals[1]? = some step1 := by
            cases h : intervals[1]? with
            | none => rw [List.getElem?_eq_none_iff] at h; omega
            | some s => exact ⟨s, rfl⟩
          exact ⟨step1, hstep1, hpos _ (List.getElem?_mem hstep1)⟩
      · refine ⟨(0, 1), by simp [hf], step0, hstep0, by omega⟩
    | some p =>
      obtain ⟨i, s⟩ := p
      obtain ⟨step, hstep, hs⟩ := hr
      have hi : i < intervals.length := (List.getElem?_eq_some.mp hstep).1
      simp only [advanceIntervalCursor, Option.getD_some, hstep]
      by_cases hf : step.frames ≤ s + 1
      · simp only [hf, if_true]
        by_cases hl : intervals.length ≤ i + 1
        · exact ⟨(0, 0), by simp [hl], step0, hstep0, hpos0⟩
        · refine ⟨(i + 1, 0), by simp [hl], ?_⟩
          obtain ⟨step1, hstep1⟩ : ∃ step1, intervals[i + 1]? = some step1 := by
            cases h : intervals[i + 1]? with
            | none => rw [List.getElem?_eq_none_iff] at h; omega
            | some x => exact ⟨x, rfl⟩
          exact ⟨step1, hstep1, hpos _ (List.getElem?_mem hstep1)⟩
      · refine ⟨(i, s + 1), by simp [hf], step, hstep, by omega⟩
  · -- past the last frame of the last step the cursor wraps to (0, 0)
    intro i s step hcur hstep hf hl
    subst hcur
    simp [advanceIntervalCursor, hstep, hf, hl]

/-- Witness for C1: a concrete two-step plan, advanced from the initial
cursor and wrapped from the last frame of the last step. -/
theorem advanceIntervalCursor_in_range_witness :
    ((∃ c, advanceIntervalCursor [⟨2, 1, 0⟩, ⟨5, 2, 1⟩] none = some c ∧
        cursorInRange [⟨2, 1, 0⟩, ⟨5, 2, 1⟩] (some c)) ∧
      (∀ i s step, (none : Option (Nat × Nat)) = some (i, s) →
        [(⟨2, 1, 0⟩ : IntervalStep), ⟨5, 2, 1⟩][i]? = some step →
        step.frames ≤ s + 1 → 2 ≤ i + 1 →
        advanceIntervalCursor [⟨2, 1, 0⟩, ⟨5, 2, 1⟩] none = some (0, 0))) ∧
    ((∃ c, advanceIntervalCursor [⟨2, 1, 0⟩, ⟨5, 2, 1⟩] (some (1, 1)) = some c ∧
        cursorInRange [⟨2, 1, 0⟩, ⟨5, 2, 1⟩] (some c)) ∧
      (∀ i s step, (some (1, 1) : Option (Nat × Nat)) = some (i, s) →
        [(⟨2, 1, 0⟩ : IntervalStep), ⟨5, 2, 1⟩][i]? = some step →
        step.frames ≤ s + 1 → 2 ≤ i + 1 →
        advanceIntervalCursor [⟨2, 1, 0⟩, ⟨5, 2, 1⟩] (some (1, 1)) = some (0, 0))) :=
  ⟨advanceIntervalCursor_in_range [⟨2, 1, 0⟩, ⟨5, 2, 1⟩] none (by decide) trivial,
    advanceIntervalCursor_in_range [⟨2, 1, 0⟩, ⟨5, 2, 1⟩] (some (1, 1)) (by decide)
      (by decide)⟩

/-- The polar-alignment state stored in `View.align`: python `None`, or
`(pos, None)` after the first probe, or `(start, pos2)` after the second
probe.  Sky coordinates are rationals. -/
abbrev AlignState := Option ((ℚ × ℚ) × Option (ℚ × ℚ))

/-- The probe action `View.toggle_align` (luddcam_capture.py lines 457
to 475), as a function of the stored RA/DEC hints and the current
alignment state. -/
def toggle_align (hint_ra hint_dec : Option ℚ) (align : AlignState) : AlignState :=
  match hint_ra, hint_dec with
  | some ra, some dec =>
    match align with
    | none => some ((ra, dec), none)
    | some (start, none) => some (start, some (ra, dec))
    | some _ => none
  | _, _ => none

/-- C4: with both hints present the probe action cycles
`None -> Started -> Probed -> None`; with either hint missing any probe
resets the state to `None`. -/
theorem toggle_align_cycle (ra dec ra2 dec2 ra3 dec3 : ℚ) (a : AlignState) :
    toggle_align (some ra) (some dec) none = some ((ra, dec), none) ∧
    toggle_align (some ra2) (some dec2) (some ((ra, dec), none))
      = some ((ra, dec), some (ra2, dec2)) ∧
    toggle_align (some ra3) (some dec3) (some ((ra, dec), some (ra2, dec2)))
      = none ∧
    toggle_align none (some dec) a = none ∧
    toggle_align (some ra) none a = none ∧
    toggle_align none none a = none := by
  exact ⟨rfl, rfl, rfl, rfl, rfl, rfl⟩

/-- The mutable state of a `Capture` controller that `set_stage` touches
(luddcam_capture.py lines 77 to 104): the mode, the lifecycle stage, the
interval cursor and the image count. -/
structure CaptureShared where
  mode : Mode
  stage : Stage
  interval_idx : Option (Nat × Nat)
  image_count : Nat
deriving DecidableEq, Repr

/-- Observable side effects of `Capture.set_stage` on the view and the
worker thread. -/
inductive ViewEffect
  | message (s : String)
  | joinThread
  | pauseView (b : Bool)
deriving DecidableEq, Repr

/-- The UI-thread operation `Capture.set_stage` (luddcam_capture.py lines
110 to 124).  A missing output directory (python falsy `output_dir`) is
modelled as `none`. -/
def set_stage (output_dir : Option String) (st : CaptureShared) (stage : Stage) :
    CaptureShared × List ViewEffect :=
  if stage = Stage.CAPTURE ∧ output_dir = none then
    (st, [ViewEffect.message "drive not selected"])
  else
    ({ st with stage := stage, image_count := 0 },
      (if stage = Stage.STOP then [ViewEffect.joinThread] else []) ++
      (if stage = Stage.CAPTURE ∨ stage = Stage.LIVE
        then [ViewEffect.message "initialising"] else []) ++
      [if stage = Stage.PAUSE then ViewEffect.pauseView true
        else ViewEffect.pauseView false])

/-- C10: requesting the CAPTURE stage with no output directory configured
leaves the whole controller state (stage, mode, interval cursor, image
count) unchanged and only emits the drive-not-selected view message. -/
theorem set_stage_no_drive (st : CaptureShared) :
    set_stage none st Stage.CAPTURE
      = (st, [ViewEffect.message "drive not selected"]) := by
  simp [set_stage]

/-- Per-camera settings consumed by the capture worker: the single/repeat
exposure and the interval plan (luddcam_settings.py). -/
structure CameraSettings where
  exposure : ℚ
  intervals : List IntervalStep
deriving DecidableEq, Repr

/-- What the not-yet-capturing branch of `Capture.run` decides for the next
shot: the committed interval cursor, the exposure and the wheel slot. -/
structure ExposureStart where
  interval_idx : Option (Nat × Nat)
  exposure : ℚ
  slot : Option Nat
deriving DecidableEq, Repr

/-- The exposure selection of `Capture.run` (luddcam_capture.py lines 177
to 207) before the live cap is applied.  `wheel` records whether a filter
wheel is attached; `none` models a python IndexError on the interval
plan. -/
def startExposureRaw (mode : Mode) (settings : CameraSettings) (wheel : Bool)
    (wheelDefault : Nat) (interval_idx : Option (Nat × Nat)) :
    Option ExposureStart :=
  match mode with
  | Mode.INTERVALS =>
    match advanceIntervalCursor settings.intervals interval_idx with
    | none => none
    | some c =>
      match settings.intervals[c.1]? with
      | none => none
      | some step =>
        some ⟨some c, step.exposure, if wheel then some step.slot else none⟩
  | _ => some ⟨none, settings.exposure, if wheel then some wheelDefault else none⟩

/-- The live cap of `Capture.run` (luddcam_capture.py lines 209 to 211):
a LIVE-stage exposure above 1 second is intentionally limited to 1. -/
def liveCap (stage : Stage) (e : ℚ) : ℚ :=
  if stage = Stage.LIVE ∧ 1 < e then 1 else e

/-- The exposure selection of `Capture.run` with the live cap applied,
as passed to `camera.capture_start`. -/
def startExposure (mode : Mode) (stage : Stage) (settings : CameraSettings)
    (wheel : Bool) (wheelDefault : Nat) (interval_idx : Option (Nat × Nat)) :
    Option ExposureStart :=
  (startExposureRaw mode settings wheel wheelDefault interval_idx).map
    (fun r => { r with exposure := liveCap stage r.exposure })

/-- C8: whenever the worker starts an exposure in the LIVE stage, the
exposure actually used is at most 1 second; a configured exposure above 1
is overridden to 1 and a configured exposure of at most 1 is unchanged. -/
theorem startExposure_live_cap (mode : Mode) (settings : CameraSettings)
    (wheel : Bool) (wheelDefault : Nat) (idx : Option (Nat × Nat))
    (r : ExposureStart)
    (h : startExposure mode Stage.LIVE settings wheel wheelDefault idx = some r) :
    r.exposure ≤ 1 ∧
    ∀ r0, startExposureRaw mode settings wheel wheelDefault idx = some r0 →
      (1 < r0.exposure → r.exposure = 1) ∧
      (r0.exposure ≤ 1 → r.exposure = r0.exposure) := by
  unfold startExposure at h
  cases hraw : startExposureRaw mode settings wheel wheelDefault idx with
  | none => rw [hraw] at h; simp at h
  | some r0 =>
    rw [hraw] at h
    rw [Option.map_some', Option.some_inj] at h
    subst h
    constructor
    · by_cases he : 1 < r0.exposure
      · simp [liveCap, he]
      · simp only [liveCap, he, and_false, if_false]
        exact le_of_not_lt he
    · intro r1 h1
      rw [Option.some_inj] at h1
      subst h1
      constructor
      · intro he; simp [liveCap, he]
      · intro he; simp [liveCap, not_lt_of_le he]

/-- Witness for C8: a configured 5 second exposure is capped to 1 in LIVE,
checked through the theorem at a concrete input. -/
theorem startExposure_live_cap_witness :
    ((⟨none, 1, none⟩ : ExposureStart).exposure ≤ 1 ∧
      ∀ r0, startExposureRaw Mode.SINGLE ⟨5, []⟩ false 0 none = some r0 →
        (1 < r0.exposure → (⟨none, 1, none⟩ : ExposureStart).exposure = 1) ∧
        (r0.exposure ≤ 1 →
          (⟨none, 1, none⟩ : ExposureStart).exposure = r0.exposure)) :=
  startExposure_live_cap Mode.SINGLE ⟨5, []⟩ false 0 none ⟨none, 1, none⟩
    (by simp [startExposure, startExposureRaw, liveCap])

/-- The part of the shared `View` state the frame writer touches: the
saved marker (python `False` initially, then the output filename) and the
staleness flag. -/
structure ViewState where
  saved : Option String
  stale : Bool
deriving DecidableEq, Repr

/-- The writer callback `View.save` (luddcam_capture.py lines 554 to 558):
records the written filename as the saved marker and marks the surface
stale. -/
def view_save (v : ViewState) (out : String) : ViewState :=
  { v with saved := some out, stale := true }

/-- Module constant of luddcam_capture.py: compression is disabled. -/
def compression_enabled : Bool := false

/-- The frame writer body `FitsWriter.run` (luddcam_capture.py lines 371
to 414).  The external effects that can raise inside the `try` block are
modelled by failure flags: `writeFails` for the FITS write of data and
metadata, `fpackFails` for the fpack recompression, `fsyncFails` for the
fsync of the written file.  The surrounding `except` swallows any raise,
leaving the view untouched.  Returns the final view state and whether
`view.save` was invoked. -/
def fits_writer_run (haveFpack writeFails fpackFails fsyncFails : Bool)
    (view : Option ViewState) (out : String) : Option ViewState × Bool :=
  if writeFails then (view, false)
  else if compression_enabled && haveFpack then
    if fpackFails then (view, false)
    else if fsyncFails then (view, false)
    else
      match view with
      | some v => (some (view_save v out), true)
      | none => (none, false)
  else if fsyncFails then (view, false)
  else
    match view with
    | some v => (some (view_save v out), true)
    | none => (none, false)

/-- C9: with a view attached, the writer reports completion (invoking
`View.save`, which sets the saved marker to the output filename) exactly
when the write and the fsync both complete without an exception; on any
failure the view state, in particular the saved marker, is unchanged. -/
theorem fits_writer_run_saved_iff (haveFpack writeFails fpackFails fsyncFails : Bool)
    (v : ViewState) (out : String) :
    ((fits_writer_run haveFpack writeFails fpackFails fsyncFails (some v) out).2 = true
      ↔ writeFails = false ∧ fsyncFails = false) ∧
    ((fits_writer_run haveFpack writeFails fpackFails fsyncFails (some v) out).2 = true →
      (fits_writer_run haveFpack writeFails fpackFails fsyncFails (some v) out).1
        = some { v with saved := some out, stale := true }) ∧
    ((fits_writer_run haveFpack writeFails fpackFails fsyncFails (some v) out).2 = false →
      (fits_writer_run haveFpack writeFails fpackFails fsyncFails (some v) out).1
        = some v) := by
  cases writeFails <;> cases fsyncFails <;>
    simp [fits_writer_run, compression_enabled, view_save]

/-- Witness for C9 at a concrete view, filename and failure flags. -/
theorem fits_writer_run_saved_iff_witness :
    (((fits_writer_run false false false false (some ⟨none, false⟩) "IMG_00001.fit").2 = true
        ↔ false = false ∧ false = false) ∧
      ((fits_writer_run false false false false (some ⟨none, false⟩) "IMG_00001.fit").2 = true →
        (fits_writer_run false false false false (some ⟨none, false⟩) "IMG_00001.fit").1
          = some ⟨some "IMG_00001.fit", true⟩) ∧
      ((fits_writer_run false false false false (some ⟨none, false⟩) "IMG_00001.fit").2 = false →
        (fits_writer_run false false false false (some ⟨none, false⟩) "IMG_00001.fit").1
          = some ⟨none, false⟩)) ∧
    (((fits_writer_run false false false true (some ⟨none, false⟩) "IMG_00001.fit").2 = true
        ↔ false = false ∧ true = false) ∧
      ((fits_writer_run false false false true (some ⟨none, false⟩) "IMG_00001.fit").2 = true →
        (fits_writer_run false false false true (some ⟨none, false⟩) "IMG_00001.fit").1
          = some ⟨some "IMG_00001.fit", true⟩) ∧
      ((fits_writer_run false false false true (some ⟨none, false⟩) "IMG_00001.fit").2 = false →
        (fits_writer_run false false false true (some ⟨none, false⟩) "IMG_00001.fit").1
          = some ⟨none, false⟩)) :=
  ⟨fits_writer_run_saved_iff false false false false ⟨none, false⟩ "IMG_00001.fit",
    fits_writer_run_saved_iff false false false true ⟨none, false⟩ "IMG_00001.fit"⟩

/-- Bayer patterns supported by the debayer functions.  An unsupported
pattern string raises in python; the enum makes that case unrepresentable
here. -/
inductive Bayer
  | RGGB
  | BGGR
  | GRBG
  | GBRG
deriving DecidableEq, Repr

/-- Errors raised by `downscale` (luddcam_capture.py lines 1033 to 1062):
the explicit upscale ValueError, the odd-dimension ValueError of the
debayer helpers, and the python UnboundLocalError on the zoomed mono path
where `rgb` is never assigned. -/
inductive DownscaleError
  | upscale
  | oddDims
  | unboundRgb
deriving DecidableEq, Repr

/-- Python `i & ~1` (luddcam_capture.py `even_down`): the nearest even
number, rounding down. -/
def even_down (i : Nat) : Nat := i - i % 2

/-- Shape of `pixel_bin` (luddcam_capture.py lines 1064 to 1074): repeated
2x2 averaging after trimming to even dimensions, until the image fits the
target; each round maps (h, w) to (h / 2, w / 2). -/
def pixel_bin_shape (h w th tw : Nat) : Nat × Nat :=
  if tw < w ∨ th < h then pixel_bin_shape (h / 2) (w / 2) th tw
  else (h, w)
termination_by h + w
decreasing_by simp_wf; omega

/-- Shape of `downscale` (luddcam_capture.py lines 1033 to 1062) as a
function of the input shape, the target shape, the zoom flag and the
bayer pattern.  `debayer_fast` halves both dimensions and requires them
even; `debayer_quality` keeps dimensions and requires them even; the crop
follows numpy slicing, which clamps at the array bounds. -/
def downscale_shape (h w th tw : Nat) (zoom : Bool) (bayer : Option Bayer) :
    Except DownscaleError (Nat × Nat) :=
  if h < th ∨ w < tw then Except.error DownscaleError.upscale
  else if zoom then
    let startx := even_down (w / 2 - tw / 2)
    let starty := even_down (h / 2 - th / 2)
    let ch := min th (h - starty)
    let cw := min tw (w - startx)
    match bayer with
    | some _ =>
      if ch % 2 = 0 ∧ cw % 2 = 0 then Except.ok (ch, cw)
      else Except.error DownscaleError.oddDims
    | none => Except.error DownscaleError.unboundRgb
  else
    match bayer with
    | some _ =>
      if h % 2 = 0 ∧ w % 2 = 0 then Except.ok (pixel_bin_shape (h / 2) (w / 2) th tw)
      else Except.error DownscaleError.oddDims
    | none => Except.ok (pixel_bin_shape h w th tw)

theorem pixel_bin_shape_le (h w th tw : Nat) :
    (pixel_bin_shape h w th tw).1 ≤ th ∧ (pixel_bin_shape h w th tw).2 ≤ tw := by
  by_cases hc : tw < w ∨ th < h
  · rw [pixel_bin_shape, if_pos hc]
    exact pixel_bin_shape_le (h / 2) (w / 2) th tw
  · rw [pixel_bin_shape, if_neg hc]
    push_neg at hc
    exact ⟨hc.2, hc.1⟩
termination_by h + w
decreasing_by simp_wf; omega

/-- C5: without zoom, `downscale` never returns a buffer whose height or
width exceeds the requested target, and for any zoom and bayer setting it
raises whenever the target height exceeds the source height or the target
width exceeds the source width. -/
theorem downscale_shape_bounds (h w th tw : Nat) (bayer : Option Bayer) :
    (∀ rh rw, downscale_shape h w th tw false bayer = Except.ok (rh, rw) →
      rh ≤ th ∧ rw ≤ tw) ∧
    (∀ zoom, (h < th ∨ w < tw) →
      downscale_shape h w th tw zoom bayer = Except.error DownscaleError.upscale) := by
  constructor
  · intro rh rw hok
    by_cases hup : h < th ∨ w < tw
    · rw [downscale_shape.eq_def, if_pos hup] at hok
      exact absurd hok (by simp)
    · rw [downscale_shape.eq_def, if_neg hup] at hok
      simp only [Bool.false_eq_true, if_false] at hok
      cases bayer with
      | some b =>
        by_cases heven : h % 2 = 0 ∧ w % 2 = 0
        · rw [if_pos heven, Except.ok.injEq] at hok
          have := pixel_bin_shape_le (h / 2) (w / 2) th tw
          rw [hok] at this
          exact this
        · rw [if_neg heven] at hok
          exact absurd hok (by simp)
      | none =>
        rw [Except.ok.injEq] at hok
        have := pixel_bin_shape_le h w th tw
        rw [hok] at this
        exact this
  · intro zoom hup
    rw [downscale_shape.eq_def, if_pos hup]

/-- Witness for C5: a 100x200 frame downscaled to 30x40 stays within the
target, and a 10x10 frame refuses a 20x20 target. -/
theorem downscale_shape_bounds_witness :
    ((∀ rh rw, downscale_shape 100 200 30 40 false (some Bayer.RGGB) = Except.ok (rh, rw) →
        rh ≤ 30 ∧ rw ≤ 40) ∧
      (∀ zoom, (100 < 30 ∨ 200 < 40) →
        downscale_shape 100 200 30 40 zoom (some Bayer.RGGB)
          = Except.error DownscaleError.upscale)) ∧
    ((∀ rh rw, downscale_shape 10 10 20 20 false none = Except.ok (rh, rw) →
        rh ≤ 20 ∧ rw ≤ 20) ∧
      (∀ zoom, (10 < 20 ∨ 10 < 20) →
        downscale_shape 10 10 20 20 zoom none = Except.error DownscaleError.upscale)) ∧
    downscale_shape 100 200 30 40 false (some Bayer.RGGB) = Except.ok (12, 25) ∧
    downscale_shape 10 10 20 20 false none = Except.error DownscaleError.upscale := by
  refine ⟨downscale_shape_bounds 100 200 30 40 (some Bayer.RGGB),
    downscale_shape_bounds 10 10 20 20 none, ?_, ?_⟩
  · simp [downscale_shape, pixel_bin_shape, even_down]
  · simp [downscale_shape]

/-- The accumulated solver knowledge `SolverHints` (luddcam_capture.py
lines 560 to 567), all fields initially python `None`. -/
structure SolverHints where
  ra_center : Option ℚ
  dec_center : Option ℚ
  pixscale : Option ℚ
  scale : Option ℚ
  parity : Option ℚ
  focal_length : Option ℤ
deriving DecidableEq, Repr

/-- The freshly constructed `SolverHints()`. -/
def SolverHints.init : SolverHints := ⟨none, none, none, none, none, none⟩

/-- The summary returned by `Astrometry.solve_field` through wcsinfo
(luddcam_astrometry.py line 57). -/
structure Bounds where
  ramin : ℚ
  ramax : ℚ
  decmin : ℚ
  decmax : ℚ
  ra_center : ℚ
  dec_center : ℚ
  pixscale : ℚ
  parity : ℚ
deriving DecidableEq, Repr

/-- The position-hint argument passed to `solve_field`: python `None`, or a
tuple whose components may themselves be `None`. -/
abbrev PosArg := Option (Option ℚ × Option ℚ)

/-- Python truthiness of an optional float: `None` and `0.0` are falsy. -/
def truthyOpt (o : Option ℚ) : Bool :=
  match o with
  | none => false
  | some q => q != 0

/-- Python `round`, which rounds halves to the nearest even integer. -/
def pyRound (q : ℚ) : ℤ :=
  if q - Int.floor q < 1 / 2 then Int.floor q
  else if 1 / 2 < q - Int.floor q then Int.floor q + 1
  else if Int.floor q % 2 = 0 then Int.floor q else Int.floor q + 1

/-- The pair of `solve_field` attempts shared by both copies of
`plate_solve`: a first attempt with the position hint
`(hints.ra_center, hints.dec_center)`, and, when it returns a falsy result
while `hints.parity` is truthy, a single retry with the position hint
removed (python `None`).  The external solver is abstracted as a function
of the position argument; the centroids, dimensions, scale hint and
parity hint are the same for both attempts.  Returns the final result and
the list of position arguments passed to `solve_field`, in order. -/
def solveWithRetry (solver : PosArg → Option Bounds) (h : SolverHints) :
    Option Bounds × List PosArg :=
  let pos_hint : PosArg := some (h.ra_center, h.dec_center)
  match solver pos_hint with
  | some b => (some b, [pos_hint])
  | none =>
    if truthyOpt h.parity then (solver none, [pos_hint, none])
    else (none, [pos_hint])

/-- The in-place mutation of the hints performed on a successful solve
(luddcam_capture.py lines 778 to 789 and luddcam_images.py lines 105 to
115).  The capture copy additionally stores `hints.scale`
(`setScale = true`); the images copy does not.  `focal_length` is updated
only for a truthy `pixel_size`.  A zero `pixscale` would raise a
ZeroDivisionError in python; rational division by zero returns 0 here,
and no claim depends on that case. -/
def applySolve (setScale : Bool) (h : SolverHints) (b : Bounds)
    (scale_factor : ℚ) (pixel_size : Option ℚ) : SolverHints :=
  let h1 : SolverHints :=
    { h with ra_center := some b.ra_center, dec_center := some b.dec_center,
             pixscale := some b.pixscale, parity := some b.parity }
  let h2 := if setScale then { h1 with scale := some scale_factor } else h1
  let fl := pyRound ((scale_factor * (pixel_size.getD 0) / b.pixscale) * (41253 / 200))
  if truthyOpt pixel_size then { h2 with focal_length := some fl }
  else h2

/-- The plate-solve orchestrator of luddcam_capture.py (lines 751 to 812).
`monoPresent` is whether `img_mono` is not `None`; `nCentroids` abstracts
`len(source_extract(img_mono))`.  Returns the solved flag, the hints
state after the call (the python function mutates them in place), and the
position arguments of the `solve_field` invocations.  The star, DSO and
polar-alignment overlay outputs are display data produced by further
external-tool calls and are not modelled. -/
def plate_solve_capture (solver : PosArg → Option Bounds)
    (hints : Option SolverHints) (monoPresent : Bool) (nCentroids : Nat)
    (scale_factor : ℚ) (pixel_size : Option ℚ) :
    Bool × Option SolverHints × List PosArg :=
  match hints with
  | none => (false, none, [])
  | some h =>
    if monoPresent = false then (false, some h, [])
    else if 10 < nCentroids then
      match solveWithRetry solver h with
      | (none, calls) => (false, some h, calls)
      | (some b, calls) =>
        (true, some (applySolve true h b scale_factor pixel_size), calls)
    else (true, some h, [])

/-- The plate-solve orchestrator of luddcam_images.py (lines 82 to 141),
which takes the centroids directly and returns `False` for fewer than 10
of them. -/
def plate_solve_images (solver : PosArg → Option Bounds)
    (hints : Option SolverHints) (nCentroids : Nat)
    (scale_factor : ℚ) (pixel_size : Option ℚ) :
    Bool × Option SolverHints × List PosArg :=
  match hints with
  | none => (false, none, [])
  | some h =>
    if nCentroids < 10 then (false, some h, [])
    else
      match solveWithRetry solver h with
      | (none, calls) => (false, some h, calls)
      | (some b, calls) =>
        (true, some (applySolve false h b scale_factor pixel_size), calls)

/-- Counterexample for C2: with no extracted sources at all the
luddcam_capture.py `plate_solve` returns a `True` solved flag, not the
claimed `False` (it does leave the hints unmutated). -/
theorem plate_solve_capture_few_sources_counterexample :
    plate_solve_capture (fun _ => none) (some SolverHints.init) true 0 1 none
      = (true, some SolverHints.init, []) ∧
    (plate_solve_capture (fun _ => none) (some SolverHints.init) true 0 1 none).1
      ≠ false := by
  constructor
  · rfl
  · simp [plate_solve_capture]

/-- C2 (amended): with fewer than ~10 extracted sources neither copy of
`plate_solve` invokes the solver or mutates the hints; the
luddcam_images.py copy reports not solved (a `False` flag) for fewer than
10 sources, while the luddcam_capture.py copy returns a `True` flag for
10 or fewer sources. -/
theorem plate_solve_few_sources (solver : PosArg → Option Bounds)
    (h : SolverHints) (n : Nat) (sf : ℚ) (ps : Option ℚ) :
    (n ≤ 10 →
      plate_solve_capture solver (some h) true n sf ps = (true, some h, [])) ∧
    (n < 10 →
      plate_solve_images solver (some h) n sf ps = (false, some h, [])) := by
  constructor
  · intro hn
    have : ¬ 10 < n := by omega
    simp [plate_solve_capture, this]
  · intro hn
    simp [plate_solve_images, hn]

/-- Witness for C2 (amended) at 9 extracted sources. -/
theorem plate_solve_few_sources_witness :
    ((9 ≤ 10 →
        plate_solve_capture (fun _ => none) (some SolverHints.init) true 9 1 none
          = (true, some SolverHints.init, [])) ∧
      (9 < 10 →
        plate_solve_images (fun _ => none) (some SolverHints.init) 9 1 none
          = (false, some SolverHints.init, []))) ∧
    plate_solve_images (fun _ => none) (some SolverHints.init) 9 1 none
      = (false, some SolverHints.init, []) := by
  have h := plate_solve_few_sources (fun _ => none) SolverHints.init 9 1 none
  exact ⟨h, h.2 (by decide)⟩

/-- Counterexample for C3: a hints state carrying a position hint but no
parity value (for example hand-seeded hints, as in the manual test harness
at the bottom of luddcam_capture.py).  The first solve attempt fails, yet
`plate_solve` performs no retry: the retry guard tests the parity hint,
not the position hint. -/
theorem plate_solve_retry_counterexample :
    (plate_solve_capture (fun _ => none)
        (some ⟨some 10, some 20, none, none, none, none⟩) true 11 1 none).2.2
      = [some (some 10, some 20)] ∧
    ((plate_solve_capture (fun _ => none)
        (some ⟨some 10, some 20, none, none, none, none⟩) true 11 1 none).2.2).length
      = 1 := by
  constructor <;> rfl

/-- C3 (amended): the retry is guarded by the parity hint.  When the first
`solve_field` attempt fails and the stored parity hint is truthy, the
orchestrator retries exactly once with the position hint removed (the
second call passes python `None`); when the parity hint is falsy, or the
first attempt succeeds, there is no second call.  Since a successful
solve stores `ra_center`, `dec_center` and `parity` together, a truthy
parity hint coincides with a position hint from a prior solve. -/
theorem plate_solve_retry (solver : PosArg → Option Bounds)
    (h : SolverHints) (n : Nat) (sf : ℚ) (ps : Option ℚ) (hn : 10 < n) :
    (solver (some (h.ra_center, h.dec_center)) = none → truthyOpt h.parity = true →
      (plate_solve_capture solver (some h) true n sf ps).2.2
        = [some (h.ra_center, h.dec_center), none]) ∧
    (solver (some (h.ra_center, h.dec_center)) = none → truthyOpt h.parity = false →
      (plate_solve_capture solver (some h) true n sf ps).2.2
        = [some (h.ra_center, h.dec_center)]) ∧
    (∀ b, solver (some (h.ra_center, h.dec_center)) = some b →
      (plate_solve_capture solver (some h) true n sf ps).2.2
        = [some (h.ra_center, h.dec_center)]) := by
  refine ⟨?_, ?_, ?_⟩
  · intro hfail hpar
    simp only [plate_solve_capture, solveWithRetry, hfail, hpar, hn, if_true]
    cases hretry : solver none <;> simp [hretry]
  · intro hfail hpar
    simp [plate_solve_capture, solveWithRetry, hfail, hpar, hn]
  · intro b hb
    simp [plate_solve_capture, solveWithRetry, hb, hn]

/-- Witness for C3 (amended): post-solve hints (parity stored) with a
failing solver retry exactly once without the position hint. -/
theorem plate_solve_retry_witness :
    (((fun _ => none : PosArg → Option Bounds) (some (some 10, some 20)) = none →
        truthyOpt (some 1) = true →
        (plate_solve_capture (fun _ => none)
            (some ⟨some 10, some 20, some 2, some 4, some 1, some 600⟩) true 11 1 none).2.2
          = [some (some 10, some 20), none]) ∧
      ((fun _ => none : PosArg → Option Bounds) (some (some 10, some 20)) = none →
        truthyOpt (some 1) = false →
        (plate_solve_capture (fun _ => none)
            (some ⟨some 10, some 20, some 2, some 4, some 1, some 600⟩) true 11 1 none).2.2
          = [some (some 10, some 20)]) ∧
      (∀ b, (fun _ => none : PosArg → Option Bounds) (some (some 10, some 20)) = some b →
        (plate_solve_capture (fun _ => none)
            (some ⟨some 10, some 20, some 2, some 4, some 1, some 600⟩) true 11 1 none).2.2
          = [some (some 10, some 20)])) ∧
    (plate_solve_capture (fun _ => none)
        (some ⟨some 10, some 20, some 2, some 4, some 1, some 600⟩) true 11 1 none).2.2
      = [some (some 10, some 20), none] := by
  have h := plate_solve_retry (fun _ => none)
    ⟨some 10, some 20, some 2, some 4, some 1, some 600⟩ 11 1 none (by decide)
  exact ⟨h, h.1 rfl (by decide)⟩

/-- Insertion into a sorted list of pixels, ascending. -/
def insertSorted (x : ℤ) : List ℤ → List ℤ
  | [] => [x]
  | y :: ys => if x ≤ y then x :: y :: ys else y :: insertSorted x ys

/-- Ascending sort of pixel values, as numpy sorts before taking
quantiles. -/
def sortInts : List ℤ → List ℤ
  | [] => []
  | x :: xs => insertSorted x (sortInts xs)

/-- Numpy stride-2 sampling `a[::2]`: the elements at even indices. -/
def everyOther : List α → List α
  | [] => []
  | [a] => [a]
  | a :: _ :: rest => a :: everyOther rest

/-- The sample used by `quantize` for its bounds (luddcam_capture.py lines
1086 to 1087): every other row and column (`img[::2, ::2]`), flattened in
row order as numpy boolean indexing does, keeping only strictly positive
values (`sampled[sampled > 0]`, ignoring letterboxing). -/
def sampledPositives (img : List (List ℤ)) : List ℤ :=
  (((everyOther img).map everyOther).flatten).filter (fun x => 0 < x)

/-- Numpy linear-interpolation quantile: for a sorted sample `s` of size
`n` and percentage `q`, the value at fractional position `(n - 1) * q /
100`, interpolated between the neighbouring order statistics.
`np.median` equals this at `q = 50`; `np.percentile(_, 99.9)` is `q =
99.9`.  Empty input (numpy NaN) returns 0; the claims only use non-empty
samples. -/
def percentile (l : List ℤ) (q : ℚ) : ℚ :=
  let s := sortInts l
  if s.length = 0 then 0
  else
    let pos : ℚ := ((s.length : ℚ) - 1) * q / 100
    let i : ℕ := (Int.floor pos).toNat
    let frac : ℚ := pos - Int.floor pos
    let lo : ℚ := ((s.getD i 0 : ℤ) : ℚ)
    let hi : ℚ := ((s.getD (min (i + 1) (s.length - 1)) 0 : ℤ) : ℚ)
    lo + (hi - lo) * frac

/-- The low quantization bound of `quantize` for a non-8-bit image:
`np.median` of the positive stride-2 sample (luddcam_capture.py line
1092). -/
def quantize_lo (img : List (List ℤ)) : ℚ :=
  percentile (sampledPositives img) 50

/-- The high quantization bound of `quantize` for a non-8-bit image: the
99.9th percentile of the positive stride-2 sample (luddcam_capture.py
line 1093). -/
def quantize_hi (img : List (List ℤ)) : ℚ :=
  percentile (sampledPositives img) (999 / 10)

/-- The per-pixel mapping of `quantize` without stretch for a non-8-bit
image (luddcam_capture.py lines 1097 to 1109).  For `lo < hi` this is
`((x - lo) * (255 / (hi - lo))).clip(0, 255)` truncated to an 8-bit
integer; otherwise the fallback `(x >> 8).astype(np.uint8)`, an
arithmetic shift followed by the wrap-around of the uint8 cast. -/
def quantize_pixel (lo hi : ℚ) (x : ℤ) : ℤ :=
  if lo < hi then min 255 (max 0 (Int.floor (((x : ℚ) - lo) * (255 / (hi - lo)))))
  else (x / 256) % 256

/-- The non-stretch path of `quantize` on a non-8-bit image, pixel by
pixel with the sampled bounds. -/
def quantize_no_stretch (img : List (List ℤ)) : List (List ℤ) :=
  img.map (fun row => row.map (quantize_pixel (quantize_lo img) (quantize_hi img)))

/-- C6: quantize without stretch is monotonic.  For a non-8-bit image
whose sampled median is strictly below its 99.9th percentile, any two
pixel values `a < b` inside the sampled low/high range quantize to
outputs with `quantize a ≤ quantize b`. -/
theorem quantize_no_stretch_monotone (img : List (List ℤ)) (a b : ℤ)
    (hlh : quantize_lo img < quantize_hi img)
    (ha : quantize_lo img ≤ (a : ℚ)) (hab : a < b)
    (hb : (b : ℚ) ≤ quantize_hi img) :
    quantize_pixel (quantize_lo img) (quantize_hi img) a
      ≤ quantize_pixel (quantize_lo img) (quantize_hi img) b := by
  have hm : (0 : ℚ) ≤ 255 / (quantize_hi img - quantize_lo img) := by
    have : (0 : ℚ) < quantize_hi img - quantize_lo img := sub_pos.mpr hlh
    positivity
  unfold quantize_pixel
  rw [if_pos hlh, if_pos hlh]
  have hcast : (a : ℚ) ≤ (b : ℚ) := by exact_mod_cast le_of_lt hab
  have hfloor : Int.floor (((a : ℚ) - quantize_lo img)
        * (255 / (quantize_hi img - quantize_lo img)))
      ≤ Int.floor (((b : ℚ) - quantize_lo img)
        * (255 / (quantize_hi img - quantize_lo img))) := by
    apply Int.floor_le_floor
    apply mul_le_mul_of_nonneg_right _ hm
    linarith
  exact min_le_min (le_refl _) (max_le_max (le_refl _) hfloor)

theorem sampledPositives_159 : sampledPositives [[1, 5, 9]] = [1, 9] := by
  simp [sampledPositives, everyOther]

theorem quantize_lo_159 : quantize_lo [[1, 5, 9]] = 5 := by
  rw [quantize_lo, sampledPositives_159]
  simp [percentile, sortInts, insertSorted]
  norm_num [Int.fract]

theorem quantize_hi_159 : quantize_hi [[1, 5, 9]] = 1124 / 125 := by
  rw [quantize_hi, sampledPositives_159]
  simp [percentile, sortInts, insertSorted]
  norm_num [Int.fract]

/-- Witness for C6: the image with single row 1, 5, 9 samples to the
positive values 1 and 9, with median 5 strictly below 99.9th percentile
8.992, and pixel 5 quantizes no higher than pixel 8. -/
theorem quantize_no_stretch_monotone_witness :
    quantize_lo [[1, 5, 9]] < quantize_hi [[1, 5, 9]] ∧
    quantize_lo [[1, 5, 9]] ≤ ((5 : ℤ) : ℚ) ∧ (5 : ℤ) < 8 ∧
    ((8 : ℤ) : ℚ) ≤ quantize_hi [[1, 5, 9]] ∧
    quantize_pixel (quantize_lo [[1, 5, 9]]) (quantize_hi [[1, 5, 9]]) 5
      ≤ quantize_pixel (quantize_lo [[1, 5, 9]]) (quantize_hi [[1, 5, 9]]) 8 := by
  have hlo := quantize_lo_159
  have hhi := quantize_hi_159
  refine ⟨?_, ?_, by decide, ?_, ?_⟩
  · rw [hlo, hhi]; norm_num
  · rw [hlo]; norm_num
  · rw [hhi]; norm_num
  · exact quantize_no_stretch_monotone [[1, 5, 9]] 5 8
      (by rw [hlo, hhi]; norm_num) (by rw [hlo]; norm_num) (by decide)
      (by rw [hhi]; norm_num)

theorem quantize_bounds_512 : quantize_lo [[512]] = quantize_hi [[512]] := by
  have hs : sampledPositives [[512]] = [512] := by simp [sampledPositives, everyOther]
  rw [quantize_lo, quantize_hi, hs]
  simp [percentile, sortInts, insertSorted]

/-- The 16-bit asinh stretch lookup table `asinh_lut_16 = lut_asinh_16(15)`
of luddcam_capture.py lines 1266 to 1270: entry `i` is
`arcsinh(15 * i / 65535) / arcsinh(15) * 255 + 0.5` truncated to an 8-bit
integer (the value lies in `[0, 255.5]`, so the uint8 cast is a floor).
Numpy computes this with the transcendental arcsinh over floats, so the
table is modelled over the real numbers and is necessarily
noncomputable; the counterexample below only needs provable bounds on
one entry. -/
noncomputable def asinh_lut_16 (i : ℕ) : ℤ :=
  Int.floor ((Real.arsinh (15 * ((i : ℝ) / 65535)) / Real.arsinh 15) * 255 + 1 / 2)

/-- The per-pixel mapping of `quantize` with stretch for a non-8-bit image
(luddcam_capture.py lines 1097 to 1108).  For `lo < hi` the pixel is
rescaled to the 16-bit range, clipped and truncated, then looked up in
the asinh table; otherwise the degenerate fallback `asinh_lut_16[img]`
indexes the table directly with the raw pixel value. -/
noncomputable def quantize_pixel_stretch (lo hi : ℚ) (x : ℤ) : ℤ :=
  if lo < hi then
    asinh_lut_16
      (Int.toNat (min 65535 (max 0 (Int.floor (((x : ℚ) - lo) * (65535 / (hi - lo)))))))
  else asinh_lut_16 (Int.toNat x)

/-- The stretch path of `quantize` on a non-8-bit image, pixel by pixel
with the sampled bounds. -/
noncomputable def quantize_stretch (img : List (List ℤ)) : List (List ℤ) :=
  img.map (fun row => row.map (quantize_pixel_stretch (quantize_lo img) (quantize_hi img)))

/-- Entry 512 of the asinh table is at least 3: the table value is about 9,
and in particular differs from the high-bit shift `512 >> 8 = 2`.  The
bounds use `arsinh t = log (t + sqrt (1 + t ^ 2))`, the elementary
estimates `t / (1 + t) ≤ log (1 + t)` and `log x ≤ x - 1`, and
`arsinh 15 ≤ 10` via `log 31 ≤ 2 * (sqrt 31 - 1)`. -/
theorem asinh_lut_16_512_ge_three : (3 : ℤ) ≤ asinh_lut_16 512 := by
  unfold asinh_lut_16
  have hpos15 : (0 : ℝ) < Real.arsinh 15 := Real.arsinh_pos_iff.mpr (by norm_num)
  have hsqrt226 : Real.sqrt 226 ≤ 16 := by
    have h := Real.sqrt_le_sqrt (show (226 : ℝ) ≤ 256 by norm_num)
    rwa [show (256 : ℝ) = 16 ^ 2 by norm_num, Real.sqrt_sq (by norm_num)] at h
  have hsqrt31 : Real.sqrt 31 ≤ 6 := by
    have h := Real.sqrt_le_sqrt (show (31 : ℝ) ≤ 36 by norm_num)
    rwa [show (36 : ℝ) = 6 ^ 2 by norm_num, Real.sqrt_sq (by norm_num)] at h
  have hub : Real.arsinh 15 ≤ 10 := by
    rw [Real.arsinh]
    have h226 : Real.sqrt (1 + 15 ^ 2) = Real.sqrt 226 := by norm_num
    rw [h226]
    have hlog : Real.log (15 + Real.sqrt 226) ≤ Real.log 31 := by
      apply Real.log_le_log (by positivity)
      linarith
    have hlog31 : Real.log 31 ≤ 10 := by
      have hs : Real.log (Real.sqrt 31) = Real.log 31 / 2 := Real.log_sqrt (by norm_num)
      have hsub := Real.log_le_sub_one_of_pos (show (0 : ℝ) < Real.sqrt 31 by positivity)
      rw [hs] at hsub
      linarith
    linarith
  have ht : (15 : ℝ) * (((512 : ℕ) : ℝ) / 65535) = 512 / 4369 := by norm_num
  have hlb : (512 / 4881 : ℝ) ≤ Real.arsinh (15 * (((512 : ℕ) : ℝ) / 65535)) := by
    rw [ht, Real.arsinh]
    have hsq : 1 ≤ Real.sqrt (1 + (512 / 4369 : ℝ) ^ 2) := by
      have h1 : Real.sqrt 1 ≤ Real.sqrt (1 + (512 / 4369 : ℝ) ^ 2) :=
        Real.sqrt_le_sqrt (by nlinarith)
      rwa [Real.sqrt_one] at h1
    have hmono : Real.log (1 + 512 / 4369)
        ≤ Real.log (512 / 4369 + Real.sqrt (1 + (512 / 4369 : ℝ) ^ 2)) := by
      apply Real.log_le_log (by norm_num)
      linarith
    have hlow : (1 : ℝ) - (1 + 512 / 4369)⁻¹ ≤ Real.log (1 + 512 / 4369) := by
      have h2 := Real.log_le_sub_one_of_pos
        (show (0 : ℝ) < (1 + 512 / 4369 : ℝ)⁻¹ by norm_num)
      rw [Real.log_inv] at h2
      linarith
    have hval : (1 : ℝ) - (1 + 512 / 4369)⁻¹ = 512 / 4881 := by norm_num
    linarith
  have hr : (1 / 102 : ℝ)
      ≤ Real.arsinh (15 * (((512 : ℕ) : ℝ) / 65535)) / Real.arsinh 15 := by
    rw [le_div_iff₀ hpos15]
    nlinarith
  rw [Int.le_floor]
  push_cast
  nlinarith

/-- Counterexample for C7: quantize with stretch (the routine path, taken
for exposures of at least 0.1 seconds at luddcam_capture.py line 599) on
the degenerate single-pixel 16-bit image of value 512 looks the raw pixel
up in the asinh table, giving a value of at least 3, not the high-bit
shift `512 >> 8 = 2`: the unqualified claim fails for the stretch flag. -/
theorem quantize_stretch_degenerate_counterexample :
    quantize_lo [[512]] = quantize_hi [[512]] ∧
    quantize_stretch [[512]]
      ≠ [[(512 : ℤ)]].map (fun row => row.map (fun x => x / 256)) := by
  refine ⟨quantize_bounds_512, ?_⟩
  have hnl : ¬ quantize_lo [[512]] < quantize_hi [[512]] := by
    rw [quantize_bounds_512]
    exact lt_irrefl _
  have h512 : quantize_stretch [[512]] = [[asinh_lut_16 512]] := by
    simp only [quantize_stretch, quantize_pixel_stretch, List.map_cons, List.map_nil,
      if_neg hnl]
    congr 1
  rw [h512]
  have h3 := asinh_lut_16_512_ge_three
  simp only [List.map_cons, List.map_nil, ne_eq, List.cons.injEq, and_true]
  intro hcontra
  rw [hcontra] at h3
  norm_num at h3

/-- C7 (amended): for a non-8-bit (16-bit pixel range) image whose sampled
low bound equals its high bound, quantize without stretch falls back to
the naive high-bit shift: every output pixel is the input pixel shifted
right by 8 bits.  (With stretch the degenerate fallback instead applies
the 16-bit asinh lookup to the raw pixels, as the counterexample above
shows.) -/
theorem quantize_no_stretch_degenerate (img : List (List ℤ))
    (hdeg : quantize_lo img = quantize_hi img)
    (hpix : ∀ row ∈ img, ∀ x ∈ row, 0 ≤ x ∧ x < 65536) :
    quantize_no_stretch img = img.map (fun row => row.map (fun x => x / 256)) := by
  unfold quantize_no_stretch
  apply List.map_congr_left
  intro row hrow
  apply List.map_congr_left
  intro x hx
  obtain ⟨hx0, hx16⟩ := hpix row hrow x hx
  unfold quantize_pixel
  rw [if_neg (by rw [hdeg]; exact lt_irrefl _)]
  have hdiv0 : 0 ≤ x / 256 := Int.ediv_nonneg hx0 (by norm_num)
  have hdivlt : x / 256 < 256 := by
    apply Int.ediv_lt_of_lt_mul (by norm_num)
    omega
  exact Int.emod_eq_of_lt hdiv0 hdivlt

/-- Witness for C7: a single-pixel image of value 512, whose sample has
equal low and high bounds, quantizes to 512 shifted right by 8 bits. -/
theorem quantize_no_stretch_degenerate_witness :
    quantize_lo [[512]] = quantize_hi [[512]] ∧
    (∀ row ∈ [[(512 : ℤ)]], ∀ x ∈ row, 0 ≤ x ∧ x < 65536) ∧
    quantize_no_stretch [[512]] = [[(512 : ℤ)]].map (fun row => row.map (fun x => x / 256)) ∧
    quantize_no_stretch [[512]] = [[2]] := by
  refine ⟨quantize_bounds_512, by decide, ?_, ?_⟩
  · exact quantize_no_stretch_degenerate [[512]] quantize_bounds_512 (by decide)
  · rw [quantize_no_stretch_degenerate [[512]] quantize_bounds_512 (by decide)]
    decide

end Luddcam
